import Mathlib

/-!
Shallow embedding of the mips-sim MIPS-I simulator core
(`src/instr.rs` and `src/sim.rs`) and verification of the
specification claims about it.

Modelling conventions:
* Rust `u32` values are `Nat`s kept below `2 ^ 32`; wrapping unsigned
  arithmetic is written with an explicit `% 2 ^ 32` (release-profile
  semantics).
* Rust `i32`/`i64` values are `Int`s; `u32 as i32` is `toI32`,
  `i32 as u32` is `ofI32`, `u32 as i64` is the `Nat`-to-`Int` coercion
  (which zero-extends, exactly as the Rust cast does), and
  `i32 as usize` on a 64-bit target sign-extends and reinterprets,
  which is `Int.emod _ (2 ^ 64)`.
* Fallible operations return `Option`; `none` models a Rust panic
  (failed `expect`, failed `assert!`, out-of-bounds index, or i64
  division by zero).  Memory accesses return `MemResult`, whose
  `absent` constructor models the `None`/`false` a Rust memory routine
  returns for an address outside the region, while `fault` models a
  panic from indexing past the end of the byte vector.
* Register files are `List Nat`s of length 32; reads are `getD _ 0`
  and writes are `List.set`.  The decoder only ever produces register
  indices below 32 (5-bit fields), so the out-of-range behaviour of
  `getD`/`set` is never exercised by decoded instructions.
-/

namespace MipsSim

/-- Reinterpret a `u32` value (a `Nat`) as an `i32`, i.e. `x as i32`. -/
def toI32 (n : Nat) : Int :=
  if n % 2 ^ 32 < 2 ^ 31 then ((n % 2 ^ 32 : Nat) : Int)
  else ((n % 2 ^ 32 : Nat) : Int) - 2 ^ 32

/-- Reinterpret an `i32` value (an `Int`) as a `u32`, i.e. `x as u32`. -/
def ofI32 (i : Int) : Nat := (i % (2 ^ 32 : Int)).toNat

/-- Model of `i32 as usize` on a 64-bit target: the `i32` is
sign-extended to 64 bits and reinterpreted as unsigned.  The argument
is first normalised through the `i32` wrap (`toI32 (ofI32 i)`) because
the Rust expression computes an `i32` sum before the cast. -/
def i32_as_usize (i : Int) : Nat := (toI32 (ofI32 i) % (2 ^ 64 : Int)).toNat

/-- Embedding of `sign_extend32` from `sim.rs`:
`((data << (32 - size)) as i32) >> (32 - size)` where the right shift
on `i32` is arithmetic, i.e. floor division by the power of two. -/
def sign_extend32 (data : Nat) (size : Nat) : Int :=
  Int.fdiv (toI32 ((data <<< (32 - size)) % 2 ^ 32)) ((2 : Int) ^ (32 - size))

/-! ## Instruction model (`instr.rs`) -/

inductive JOp where
  | J | JAL
deriving DecidableEq

inductive IOp where
  | BEQ | BNE | BLEZ | BGTZ | ADDI | ADDIU | SLTI | SLTIU
  | ANDI | ORI | XORI | LUI | LB | LH | LW | LBU | LHU | SB | SH | SW
  | BLTZ | BGEZ | BLTZAL | BGEZAL
deriving DecidableEq

inductive ROp where
  | SLL | SRL | SRA | SLLV | SRLV | SRAV | JR | JALR
  | ADD | ADDU | SUB | SUBU | AND | OR | XOR | NOR | SLT | SLTU
  | MULT | MULTU | DIV | DIVU | MFHI | MFLO | MTHI | MTLO | SYSCALL
deriving DecidableEq

structure JType where
  opcode : Nat
  target : Nat
  op : JOp
deriving DecidableEq

structure IType where
  opcode : Nat
  rs : Nat
  rt : Nat
  imm : Nat
  op : IOp
deriving DecidableEq

structure RType where
  opcode : Nat
  rs : Nat
  rt : Nat
  rd : Nat
  shamt : Nat
  funct : Nat
  op : ROp
deriving DecidableEq

inductive Instr where
  | JType (j : JType)
  | IType (i : IType)
  | RType (r : RType)
deriving DecidableEq

/-- `extract_opcode`: the top 6 bits of the word. -/
def extract_opcode (instr : Nat) : Nat := (instr &&& 0xFC000000) >>> 26

def parse_jump_instr (instr : Nat) (op : JOp) : JType :=
  { opcode := extract_opcode instr, target := instr &&& 0x3FFFFFF, op := op }

def parse_immediate_instr (instr : Nat) (op : IOp) : IType :=
  { opcode := extract_opcode instr
    rs := (instr &&& 0x3E00000) >>> 21
    rt := (instr &&& 0x1F0000) >>> 16
    imm := instr &&& 0xFFFF
    op := op }

/-- REGIMM decoding, discriminated on the `rt` field.  The source
matches `rt` against `0x20`/`0x21` for the AL variants (and panics,
modelled as `none`, on anything that is not `0x0`, `0x1`, `0x20`,
`0x21`). -/
def parse_immediate_instr_and_op (instr : Nat) : Option IType :=
  let rs := (instr &&& 0x3E00000) >>> 21
  let rt := (instr &&& 0x1F0000) >>> 16
  let imm := instr &&& 0xFFFF
  let op : Option IOp :=
    match rt with
    | 0x0 => some IOp.BLTZ
    | 0x1 => some IOp.BGEZ
    | 0x20 => some IOp.BLTZAL
    | 0x21 => some IOp.BGEZAL
    | _ => none
  match op with
  | some op => some { opcode := extract_opcode instr, rs := rs, rt := rt, imm := imm, op := op }
  | none => none

/-- R-form decoding; the `assert_eq!(extract_opcode(instr), 0)` is
modelled by returning `none` when the primary opcode is nonzero. -/
def parse_register_instr (instr : Nat) : Option RType :=
  let rs := (instr &&& 0x3E00000) >>> 21
  let rt := (instr &&& 0x1F0000) >>> 16
  let rd := (instr &&& 0xF800) >>> 11
  let shamt := (instr &&& 0x7C0) >>> 6
  let funct := instr &&& 0x3F
  if extract_opcode instr ≠ 0 then none
  else
    let op : Option ROp :=
      match funct with
      | 0x0 => some ROp.SLL
      | 0x2 => some ROp.SRL
      | 0x3 => some ROp.SRA
      | 0x4 => some ROp.SLLV
      | 0x6 => some ROp.SRLV
      | 0x7 => some ROp.SRAV
      | 0x8 => some ROp.JR
      | 0x9 => some ROp.JALR
      | 0x20 => some ROp.ADD
      | 0x21 => some ROp.ADDU
      | 0x22 => some ROp.SUB
      | 0x23 => some ROp.SUBU
      | 0x24 => some ROp.AND
      | 0x25 => some ROp.OR
      | 0x26 => some ROp.XOR
      | 0x27 => some ROp.NOR
      | 0x2A => some ROp.SLT
      | 0x2B => some ROp.SLTU
      | 0x18 => some ROp.MULT
      | 0x19 => some ROp.MULTU
      | 0x1A => some ROp.DIV
      | 0x1B => some ROp.DIVU
      | 0x10 => some ROp.MFHI
      | 0x12 => some ROp.MFLO
      | 0x11 => some ROp.MTHI
      | 0x13 => some ROp.MTLO
      | 0xC => some ROp.SYSCALL
      | _ => none
    match op with
    | some op =>
        some { opcode := 0, rs := rs, rt := rt, rd := rd, shamt := shamt, funct := funct, op := op }
    | none => none

/-- `parse_instr`; the `panic!` on an unknown primary opcode is `none`. -/
def parse_instr (instr : Nat) : Option Instr :=
  match extract_opcode instr with
  | 0x2 => some (Instr.JType (parse_jump_instr instr JOp.J))
  | 0x3 => some (Instr.JType (parse_jump_instr instr JOp.JAL))
  | 0x4 => some (Instr.IType (parse_immediate_instr instr IOp.BEQ))
  | 0x5 => some (Instr.IType (parse_immediate_instr instr IOp.BNE))
  | 0x6 => some (Instr.IType (parse_immediate_instr instr IOp.BLEZ))
  | 0x7 => some (Instr.IType (parse_immediate_instr instr IOp.BGTZ))
  | 0x8 => some (Instr.IType (parse_immediate_instr instr IOp.ADDI))
  | 0x9 => some (Instr.IType (parse_immediate_instr instr IOp.ADDIU))
  | 0xA => some (Instr.IType (parse_immediate_instr instr IOp.SLTI))
  | 0xB => some (Instr.IType (parse_immediate_instr instr IOp.SLTIU))
  | 0xC => some (Instr.IType (parse_immediate_instr instr IOp.ANDI))
  | 0xD => some (Instr.IType (parse_immediate_instr instr IOp.ORI))
  | 0xE => some (Instr.IType (parse_immediate_instr instr IOp.XORI))
  | 0xF => some (Instr.IType (parse_immediate_instr instr IOp.LUI))
  | 0x20 => some (Instr.IType (parse_immediate_instr instr IOp.LB))
  | 0x21 => some (Instr.IType (parse_immediate_instr instr IOp.LH))
  | 0x23 => some (Instr.IType (parse_immediate_instr instr IOp.LW))
  | 0x24 => some (Instr.IType (parse_immediate_instr instr IOp.LBU))
  | 0x25 => some (Instr.IType (parse_immediate_instr instr IOp.LHU))
  | 0x28 => some (Instr.IType (parse_immediate_instr instr IOp.SB))
  | 0x29 => some (Instr.IType (parse_immediate_instr instr IOp.SH))
  | 0x2B => some (Instr.IType (parse_immediate_instr instr IOp.SW))
  | 0x1 =>
    match parse_immediate_instr_and_op instr with
    | some i => some (Instr.IType i)
    | none => none
  | 0x0 =>
    match parse_register_instr instr with
    | some r => some (Instr.RType r)
    | none => none
  | _ => none

/-! ## Memory model (`sim.rs`, `MemRegion`) -/

/-- Result of a memory access: `ok` is a successful access, `absent`
is the `None`/`false` returned when the address lies outside the
region, `fault` is a Rust panic from indexing the byte vector out of
bounds. -/
inductive MemResult (α : Type) where
  | ok (val : α)
  | absent
  | fault
deriving DecidableEq

structure MemRegion where
  start : Nat
  size : Nat
  mem : List Nat
deriving DecidableEq

def MemRegion.new (start size : Nat) : MemRegion :=
  { start := start, size := size, mem := List.replicate size 0 }

def MemRegion.contains_address (r : MemRegion) (address : Nat) : Bool :=
  decide (address ≥ r.start) && decide (address < r.start + r.size)

/-- `MemRegion::read_32`: little-endian assembly of four bytes.  The
source indexes `mem[offset + 3]` down to `mem[offset]`; an index past
the end of the vector is a panic (`fault`). -/
def MemRegion.read_32 (r : MemRegion) (address : Nat) : MemResult Nat :=
  if !r.contains_address address then .absent
  else
    let offset := address - r.start
    match r.mem[offset + 3]?, r.mem[offset + 2]?, r.mem[offset + 1]?, r.mem[offset]? with
    | some byte3, some byte2, some byte1, some byte0 =>
        .ok ((byte3 <<< 24) ||| (byte2 <<< 16) ||| (byte1 <<< 8) ||| byte0)
    | _, _, _, _ => .fault

def MemRegion.read_8 (r : MemRegion) (address : Nat) : MemResult Nat :=
  if !r.contains_address address then .absent
  else
    let offset := address - r.start
    match r.mem[offset]? with
    | some byte => .ok byte
    | none => .fault

def MemRegion.read_16 (r : MemRegion) (address : Nat) : MemResult Nat :=
  if !r.contains_address address then .absent
  else
    let offset := address - r.start
    match r.mem[offset + 1]?, r.mem[offset]? with
    | some byte1, some byte0 => .ok ((byte1 <<< 8) ||| byte0)
    | _, _ => .fault

/-- `MemRegion::write_32`: stores the four bytes of `value` in
little-endian order.  The source writes `mem[offset + 3]` first, so a
word whose highest byte falls past the end of the vector panics
(`fault`) before any byte is stored. -/
def MemRegion.write_32 (r : MemRegion) (address : Nat) (value : Nat) : MemResult MemRegion :=
  if !r.contains_address address then .absent
  else
    let offset := address - r.start
    if offset + 3 < r.mem.length then
      let mem2 :=
        (((r.mem.set (offset + 3) ((value >>> 24) % 256)).set
            (offset + 2) ((value >>> 16) % 256)).set
            (offset + 1) ((value >>> 8) % 256)).set
            offset (value % 256)
      .ok { r with mem := mem2 }
    else .fault

/-! ## Architectural state (`sim.rs`, `CpuState` and `MipsComputer`) -/

structure CpuState where
  pc : Nat
  regs : List Nat
  hi : Nat
  lo : Nat
deriving DecidableEq

def CpuState.new : CpuState :=
  { pc := 0, regs := List.replicate 32 0, hi := 0, lo := 0 }

/-- Read `regs[i]`; decoded register indices are always below 32. -/
def getReg (s : CpuState) (i : Nat) : Nat := s.regs.getD i 0

structure MipsComputer where
  curr_state : CpuState
  next_state : CpuState
  run_bit : Bool
  instr_cnt : Nat
  memory : List MemRegion
deriving DecidableEq

/-- Linear scan of the regions: the first region that does not answer
`absent` services the access; a `fault` (panic) propagates. -/
def mem_read_32_regions : List MemRegion → Nat → MemResult Nat
  | [], _ => .absent
  | r :: rest, address =>
    match r.read_32 address with
    | .ok data => .ok data
    | .absent => mem_read_32_regions rest address
    | .fault => .fault

def mem_read_16_regions : List MemRegion → Nat → MemResult Nat
  | [], _ => .absent
  | r :: rest, address =>
    match r.read_16 address with
    | .ok data => .ok data
    | .absent => mem_read_16_regions rest address
    | .fault => .fault

def mem_read_8_regions : List MemRegion → Nat → MemResult Nat
  | [], _ => .absent
  | r :: rest, address =>
    match r.read_8 address with
    | .ok data => .ok data
    | .absent => mem_read_8_regions rest address
    | .fault => .fault

def mem_write_32_regions : List MemRegion → Nat → Nat → MemResult (List MemRegion)
  | [], _, _ => .absent
  | r :: rest, address, value =>
    match r.write_32 address value with
    | .ok r2 => .ok (r2 :: rest)
    | .absent =>
      match mem_write_32_regions rest address value with
      | .ok rest2 => .ok (r :: rest2)
      | .absent => .absent
      | .fault => .fault
    | .fault => .fault

def MipsComputer.mem_read_32 (m : MipsComputer) (address : Nat) : MemResult Nat :=
  mem_read_32_regions m.memory address

def MipsComputer.mem_read_16 (m : MipsComputer) (address : Nat) : MemResult Nat :=
  mem_read_16_regions m.memory address

def MipsComputer.mem_read_8 (m : MipsComputer) (address : Nat) : MemResult Nat :=
  mem_read_8_regions m.memory address

/-- The five fixed memory regions built by `MipsComputer::new`. -/
def initMemory : List MemRegion :=
  [ MemRegion.new 0x10000000 0x00100000
  , MemRegion.new 0x00400000 0x00100000
  , MemRegion.new 0x7ff00000 0x00100000
  , MemRegion.new 0x90000000 0x00100000
  , MemRegion.new 0x80000000 0x00100000 ]

/-! ## Semantic handlers -/

/-- Effective address of a load/store:
`(R[rs] as i32 + sign_extend32(imm, 16)) as usize`. -/
def effective_address (s : CpuState) (rs imm : Nat) : Nat :=
  i32_as_usize (toI32 (getReg s rs) + sign_extend32 imm 16)

/-- `MipsComputer::process_jtype_instruction`. -/
def MipsComputer.process_jtype_instruction (m : MipsComputer) (instr : JType) :
    Option (MipsComputer × Bool) :=
  match instr.op with
  | .J =>
    let top_byte := m.curr_state.pc &&& 0xF0000000
    some ({ m with next_state :=
      { m.next_state with pc := (top_byte ||| ((instr.target <<< 2) % 2 ^ 32)) % 2 ^ 32 } }, false)
  | .JAL =>
    let top_byte := m.curr_state.pc &&& 0xF0000000
    some ({ m with next_state :=
      { m.next_state with
        pc := (top_byte ||| ((instr.target <<< 2) % 2 ^ 32)) % 2 ^ 32
        regs := m.next_state.regs.set 31 ((m.curr_state.pc + 4) % 2 ^ 32) } }, false)

/-- `MipsComputer::process_itype_instruction`.  `none` models a panic
(a failed `expect` on a load or a failed `assert!` on a store). -/
def MipsComputer.process_itype_instruction (m : MipsComputer) (instr : IType) :
    Option (MipsComputer × Bool) :=
  match instr.op with
  | .BEQ =>
    let ext_off := sign_extend32 ((instr.imm <<< 2) % 2 ^ 32) 18
    let new_addr := toI32 m.curr_state.pc + ext_off
    if getReg m.curr_state instr.rs = getReg m.curr_state instr.rt then
      some ({ m with next_state := { m.next_state with pc := ofI32 new_addr } }, false)
    else some (m, true)
  | .BNE =>
    let ext_off := sign_extend32 ((instr.imm <<< 2) % 2 ^ 32) 18
    let new_addr := toI32 m.curr_state.pc + ext_off
    if getReg m.curr_state instr.rs ≠ getReg m.curr_state instr.rt then
      some ({ m with next_state := { m.next_state with pc := ofI32 new_addr } }, false)
    else some (m, true)
  | .BLEZ =>
    let ext_off := sign_extend32 ((instr.imm <<< 2) % 2 ^ 32) 18
    let new_addr := toI32 m.curr_state.pc + ext_off
    let val := toI32 (getReg m.curr_state instr.rs)
    if val ≤ 0 then
      some ({ m with next_state := { m.next_state with pc := ofI32 new_addr } }, false)
    else some (m, true)
  | .BGEZ =>
    let ext_off := sign_extend32 ((instr.imm <<< 2) % 2 ^ 32) 18
    let new_addr := toI32 m.curr_state.pc + ext_off
    let val := toI32 (getReg m.curr_state instr.rs)
    if val ≥ 0 then
      some ({ m with next_state := { m.next_state with pc := ofI32 new_addr } }, false)
    else some (m, true)
  | .BGTZ =>
    let ext_off := sign_extend32 ((instr.imm <<< 2) % 2 ^ 32) 18
    let new_addr := toI32 m.curr_state.pc + ext_off
    let val := toI32 (getReg m.curr_state instr.rs)
    if val > 0 then
      some ({ m with next_state := { m.next_state with pc := ofI32 new_addr } }, false)
    else some (m, true)
  | .BLTZ =>
    let ext_off := sign_extend32 ((instr.imm <<< 2) % 2 ^ 32) 18
    let new_addr := toI32 m.curr_state.pc + ext_off
    let val := toI32 (getReg m.curr_state instr.rs)
    if val < 0 then
      some ({ m with next_state := { m.next_state with pc := ofI32 new_addr } }, false)
    else some (m, true)
  | .BLTZAL =>
    let ext_off := sign_extend32 ((instr.imm <<< 2) % 2 ^ 32) 18
    let new_addr := toI32 m.curr_state.pc + ext_off
    let val := toI32 (getReg m.curr_state instr.rs)
    let m := { m with curr_state :=
      { m.curr_state with regs := m.curr_state.regs.set 31 ((m.curr_state.pc + 4) % 2 ^ 32) } }
    if val < 0 then
      some ({ m with next_state := { m.next_state with pc := ofI32 new_addr } }, false)
    else some (m, true)
  | .BGEZAL =>
    let ext_off := sign_extend32 ((instr.imm <<< 2) % 2 ^ 32) 18
    let new_addr := toI32 m.curr_state.pc + ext_off
    let val := toI32 (getReg m.curr_state instr.rs)
    let m := { m with curr_state :=
      { m.curr_state with regs := m.curr_state.regs.set 31 ((m.curr_state.pc + 4) % 2 ^ 32) } }
    if val ≥ 0 then
      some ({ m with next_state := { m.next_state with pc := ofI32 new_addr } }, false)
    else some (m, true)
  | .ADDI =>
    let signed_imm := sign_extend32 instr.imm 16
    some ({ m with next_state := { m.next_state with
      regs := m.next_state.regs.set instr.rt
        (ofI32 (toI32 (getReg m.curr_state instr.rs) + signed_imm)) } }, true)
  | .ADDIU =>
    let signed_imm := sign_extend32 instr.imm 16
    some ({ m with next_state := { m.next_state with
      regs := m.next_state.regs.set instr.rt
        (ofI32 (toI32 (getReg m.curr_state instr.rs) + signed_imm)) } }, true)
  | .SLTI =>
    let signed_imm := sign_extend32 instr.imm 16
    if toI32 (getReg m.curr_state instr.rs) < signed_imm then
      some ({ m with next_state := { m.next_state with
        regs := m.next_state.regs.set instr.rt 1 } }, true)
    else
      some ({ m with next_state := { m.next_state with
        regs := m.next_state.regs.set instr.rt 0 } }, true)
  | .SLTIU =>
    let signed_imm := sign_extend32 instr.imm 16
    if getReg m.curr_state instr.rs < ofI32 signed_imm then
      some ({ m with next_state := { m.next_state with
        regs := m.next_state.regs.set instr.rt 1 } }, true)
    else
      some ({ m with next_state := { m.next_state with
        regs := m.next_state.regs.set instr.rt 0 } }, true)
  | .ANDI =>
    some ({ m with next_state := { m.next_state with
      regs := m.next_state.regs.set instr.rt
        (getReg m.curr_state instr.rs &&& instr.imm) } }, true)
  | .ORI =>
    some ({ m with next_state := { m.next_state with
      regs := m.next_state.regs.set instr.rt
        (getReg m.curr_state instr.rs ||| instr.imm) } }, true)
  | .XORI =>
    some ({ m with next_state := { m.next_state with
      regs := m.next_state.regs.set instr.rt
        (getReg m.curr_state instr.rs ^^^ instr.imm) } }, true)
  | .LUI =>
    some ({ m with next_state := { m.next_state with
      regs := m.next_state.regs.set instr.rt ((instr.imm <<< 16) % 2 ^ 32) } }, true)
  | .LB =>
    let address := effective_address m.curr_state instr.rs instr.imm
    match m.mem_read_8 address with
    | .ok byte =>
      some ({ m with next_state := { m.next_state with
        regs := m.next_state.regs.set instr.rt (ofI32 (sign_extend32 byte 8)) } }, true)
    | _ => none
  | .LH =>
    let address := effective_address m.curr_state instr.rs instr.imm
    match m.mem_read_16 address with
    | .ok halfword =>
      some ({ m with next_state := { m.next_state with
        regs := m.next_state.regs.set instr.rt (ofI32 (sign_extend32 halfword 16)) } }, true)
    | _ => none
  | .LW =>
    let address := effective_address m.curr_state instr.rs instr.imm
    match m.mem_read_32 address with
    | .ok word =>
      some ({ m with next_state := { m.next_state with
        regs := m.next_state.regs.set instr.rt word } }, true)
    | _ => none
  | .LBU =>
    let address := effective_address m.curr_state instr.rs instr.imm
    match m.mem_read_8 address with
    | .ok byte =>
      some ({ m with next_state := { m.next_state with
        regs := m.next_state.regs.set instr.rt byte } }, true)
    | _ => none
  | .LHU =>
    let address := effective_address m.curr_state instr.rs instr.imm
    match m.mem_read_16 address with
    | .ok halfword =>
      some ({ m with next_state := { m.next_state with
        regs := m.next_state.regs.set instr.rt halfword } }, true)
    | _ => none
  | .SB =>
    let address := effective_address m.curr_state instr.rs instr.imm
    match mem_write_32_regions m.memory address (getReg m.curr_state instr.rt &&& 0xFF) with
    | .ok mem2 => some ({ m with memory := mem2 }, true)
    | _ => none
  | .SH =>
    let address := effective_address m.curr_state instr.rs instr.imm
    match mem_write_32_regions m.memory address (getReg m.curr_state instr.rt &&& 0xFFFF) with
    | .ok mem2 => some ({ m with memory := mem2 }, true)
    | _ => none
  | .SW =>
    let address := effective_address m.curr_state instr.rs instr.imm
    match mem_write_32_regions m.memory address (getReg m.curr_state instr.rt) with
    | .ok mem2 => some ({ m with memory := mem2 }, true)
    | _ => none

/-- `MipsComputer::process_rtype_instruction`.  `none` models the
panic of an `i64` division by zero. -/
def MipsComputer.process_rtype_instruction (m : MipsComputer) (instr : RType) :
    Option (MipsComputer × Bool) :=
  match instr.op with
  | .SLL =>
    some ({ m with next_state := { m.next_state with
      regs := m.next_state.regs.set instr.rd
        ((getReg m.curr_state instr.rt <<< instr.shamt) % 2 ^ 32) } }, true)
  | .SRL =>
    some ({ m with next_state := { m.next_state with
      regs := m.next_state.regs.set instr.rd
        (getReg m.curr_state instr.rt >>> instr.shamt) } }, true)
  | .SRA =>
    some ({ m with next_state := { m.next_state with
      regs := m.next_state.regs.set instr.rd
        (ofI32 (Int.fdiv (toI32 (getReg m.curr_state instr.rt)) ((2 : Int) ^ instr.shamt))) } },
      true)
  | .SLLV =>
    let shift := getReg m.curr_state instr.rs &&& 0x1F
    some ({ m with next_state := { m.next_state with
      regs := m.next_state.regs.set instr.rd
        ((getReg m.curr_state instr.rt <<< shift) % 2 ^ 32) } }, true)
  | .SRLV =>
    let shift := getReg m.curr_state instr.rs &&& 0x1F
    some ({ m with next_state := { m.next_state with
      regs := m.next_state.regs.set instr.rd
        (getReg m.curr_state instr.rt >>> shift) } }, true)
  | .SRAV =>
    let shift := getReg m.curr_state instr.rs &&& 0x1F
    some ({ m with next_state := { m.next_state with
      regs := m.next_state.regs.set instr.rd
        (ofI32 (Int.fdiv (toI32 (getReg m.curr_state instr.rt)) ((2 : Int) ^ shift))) } }, true)
  | .JR =>
    some ({ m with next_state :=
      { m.next_state with pc := getReg m.curr_state instr.rs } }, false)
  | .JALR =>
    some ({ m with
      next_state := { m.next_state with pc := getReg m.curr_state instr.rs }
      curr_state := { m.curr_state with
        regs := m.curr_state.regs.set instr.rd ((m.curr_state.pc + 4) % 2 ^ 32) } }, false)
  | .ADD =>
    some ({ m with next_state := { m.next_state with
      regs := m.next_state.regs.set instr.rd
        ((getReg m.curr_state instr.rs + getReg m.curr_state instr.rt) % 2 ^ 32) } }, true)
  | .ADDU =>
    some ({ m with next_state := { m.next_state with
      regs := m.next_state.regs.set instr.rd
        ((getReg m.curr_state instr.rs + getReg m.curr_state instr.rt) % 2 ^ 32) } }, true)
  | .SUB =>
    let first := toI32 (getReg m.curr_state instr.rs)
    let second := toI32 (getReg m.curr_state instr.rt)
    some ({ m with next_state := { m.next_state with
      regs := m.next_state.regs.set instr.rd (ofI32 (first - second)) } }, true)
  | .SUBU =>
    let first := toI32 (getReg m.curr_state instr.rs)
    let second := toI32 (getReg m.curr_state instr.rt)
    some ({ m with next_state := { m.next_state with
      regs := m.next_state.regs.set instr.rd (ofI32 (first - second)) } }, true)
  | .AND =>
    some ({ m with next_state := { m.next_state with
      regs := m.next_state.regs.set instr.rd
        (getReg m.curr_state instr.rs &&& getReg m.curr_state instr.rt) } }, true)
  | .OR =>
    some ({ m with next_state := { m.next_state with
      regs := m.next_state.regs.set instr.rd
        (getReg m.curr_state instr.rs ||| getReg m.curr_state instr.rt) } }, true)
  | .XOR =>
    some ({ m with next_state := { m.next_state with
      regs := m.next_state.regs.set instr.rd
        (getReg m.curr_state instr.rs ^^^ getReg m.curr_state instr.rt) } }, true)
  | .NOR =>
    some ({ m with next_state := { m.next_state with
      regs := m.next_state.regs.set instr.rd
        ((getReg m.curr_state instr.rs ||| getReg m.curr_state instr.rt) ^^^ (2 ^ 32 - 1)) } },
      true)
  | .SLT =>
    let first := toI32 (getReg m.curr_state instr.rs)
    let second := toI32 (getReg m.curr_state instr.rt)
    if first < second then
      some ({ m with next_state := { m.next_state with
        regs := m.next_state.regs.set instr.rd 1 } }, true)
    else
      some ({ m with next_state := { m.next_state with
        regs := m.next_state.regs.set instr.rd 0 } }, true)
  | .SLTU =>
    let first := getReg m.curr_state instr.rs
    let second := getReg m.curr_state instr.rt
    if first < second then
      some ({ m with next_state := { m.next_state with
        regs := m.next_state.regs.set instr.rd 1 } }, true)
    else
      some ({ m with next_state := { m.next_state with
        regs := m.next_state.regs.set instr.rd 0 } }, true)
  | .MULT =>
    let first : Int := (getReg m.curr_state instr.rs : Int)
    let second : Int := (getReg m.curr_state instr.rt : Int)
    let product : Nat := ((first * second) % (2 ^ 64 : Int)).toNat
    some ({ m with next_state := { m.next_state with
      hi := (product &&& 0xFFFFFFFF00000000) >>> 32
      lo := product &&& 0xFFFFFFFF } }, true)
  | .MULTU =>
    let first : Nat := getReg m.curr_state instr.rs
    let second : Nat := getReg m.curr_state instr.rt
    let product : Nat := (first * second) % 2 ^ 64
    some ({ m with next_state := { m.next_state with
      hi := (product &&& 0xFFFFFFFF00000000) >>> 32
      lo := product &&& 0xFFFFFFFF } }, true)
  | .DIV =>
    let first : Int := (getReg m.curr_state instr.rs : Int)
    let second : Int := (getReg m.curr_state instr.rt : Int)
    if second = 0 then none
    else
      let product : Nat := (Int.tdiv first second % (2 ^ 64 : Int)).toNat
      some ({ m with next_state := { m.next_state with
        hi := (product &&& 0xFFFFFFFF00000000) >>> 32
        lo := product &&& 0xFFFFFFFF } }, true)
  | .DIVU =>
    let first : Nat := getReg m.curr_state instr.rs
    let second : Nat := getReg m.curr_state instr.rt
    if second = 0 then none
    else
      let product : Nat := first / second
      some ({ m with next_state := { m.next_state with
        hi := (product &&& 0xFFFFFFFF00000000) >>> 32
        lo := product &&& 0xFFFFFFFF } }, true)
  | .MFHI =>
    some ({ m with next_state := { m.next_state with
      regs := m.next_state.regs.set instr.rd m.curr_state.hi } }, true)
  | .MFLO =>
    some ({ m with next_state := { m.next_state with
      regs := m.next_state.regs.set instr.rd m.curr_state.lo } }, true)
  | .MTHI =>
    some ({ m with next_state := { m.next_state with
      hi := getReg m.curr_state instr.rs } }, true)
  | .MTLO =>
    some ({ m with next_state := { m.next_state with
      lo := getReg m.curr_state instr.rs } }, true)
  | .SYSCALL =>
    if getReg m.curr_state instr.rd = 0xA then
      some ({ m with run_bit := false }, true)
    else some (m, true)

/-- `MipsComputer::process_instruction`: fetch, decode, dispatch, and
apply the PC-advance rule.  `none` models any panic during the cycle. -/
def MipsComputer.process_instruction (m : MipsComputer) : Option MipsComputer :=
  match m.mem_read_32 m.curr_state.pc with
  | .ok instrWord =>
    if instrWord = 0 then some { m with run_bit := false }
    else
      match parse_instr instrWord with
      | some instr =>
        match
          (match instr with
           | .JType j => m.process_jtype_instruction j
           | .IType i => m.process_itype_instruction i
           | .RType r => m.process_rtype_instruction r) with
        | some (m2, incr_pc) =>
          if incr_pc then
            some { m2 with next_state :=
              { m2.next_state with pc := (m2.curr_state.pc + 4) % 2 ^ 32 } }
          else some m2
        | none => none
      | none => none
  | .absent => some { m with run_bit := false }
  | .fault => none

/-- `MipsComputer::cycle`: process one instruction, then commit
(`curr_state = next_state; instr_cnt += 1`).  Note that the source
performs no fixup of `regs[0]` and increments `instr_cnt`
unconditionally. -/
def MipsComputer.cycle (m : MipsComputer) : Option MipsComputer :=
  match m.process_instruction with
  | some m2 => some { m2 with
      curr_state := m2.next_state
      instr_cnt := (m2.instr_cnt + 1) % 2 ^ 32 }
  | none => none

/-! ## Spec-side definitions

These definitions transcribe the specification's wording (not the
source) and are used to compare the code against the spec in
refinement-style claims. -/

/-- Spec-side sign extension `seXX(v)`: the low `bits` bits of `v`
interpreted as a two's-complement number.  For `se18` the spec says
the 16-bit immediate is shifted left by 2 and sign-extended from
bit 17 to 32 bits. -/
def se_spec (v : Nat) (bits : Nat) : Int :=
  if v % 2 ^ bits < 2 ^ (bits - 1) then ((v % 2 ^ bits : Nat) : Int)
  else ((v % 2 ^ bits : Nat) : Int) - 2 ^ bits

/-- The eight branch-on-condition instructions of the spec. -/
def isBranch : IOp → Bool
  | .BEQ | .BNE | .BLEZ | .BGTZ | .BLTZ | .BGEZ | .BLTZAL | .BGEZAL => true
  | _ => false

/-- Branch conditions as listed in the spec: BEQ `R[rs]==R[rt]`,
BNE `≠`, BLEZ `int32(R[rs]) ≤ 0`, BGTZ `> 0`, BLTZ `< 0`, BGEZ `≥ 0`,
with BLTZAL/BGEZAL sharing the BLTZ/BGEZ conditions. -/
def branchCondSpec (i : IType) (s : CpuState) : Bool :=
  match i.op with
  | .BEQ => decide (getReg s i.rs = getReg s i.rt)
  | .BNE => decide (getReg s i.rs ≠ getReg s i.rt)
  | .BLEZ => decide (toI32 (getReg s i.rs) ≤ 0)
  | .BGTZ => decide (toI32 (getReg s i.rs) > 0)
  | .BLTZ => decide (toI32 (getReg s i.rs) < 0)
  | .BGEZ => decide (toI32 (getReg s i.rs) ≥ 0)
  | .BLTZAL => decide (toI32 (getReg s i.rs) < 0)
  | .BGEZAL => decide (toI32 (getReg s i.rs) ≥ 0)
  | _ => false

/-- Branch target per the spec: `current.PC + se18(imm << 2)` reduced
modulo `2 ^ 32`. -/
def branchTargetSpec (pc imm : Nat) : Nat :=
  (((pc : Int) + se_spec (imm <<< 2) 18) % (2 ^ 32 : Int)).toNat

/-! ## Concrete fixtures

Small machines used as concrete inputs.  A fixture places a short
program in a region based at the TEXT segment base `0x00400000` and
starts with `curr_state = next_state` (the state every reachable
machine is in at the start of a cycle: the constructor mirrors
`curr_state` into `next_state` and every commit copies `next_state`
over `curr_state`). -/

def mkRegs (ps : List (Nat × Nat)) : List Nat :=
  ps.foldl (fun l p => l.set p.1 p.2) (List.replicate 32 0)

def mkTextMachine (bytes : List Nat) (ps : List (Nat × Nat)) : MipsComputer :=
  let cs : CpuState := { pc := 0x400000, regs := mkRegs ps, hi := 0, lo := 0 }
  { curr_state := cs
    next_state := cs
    run_bit := true
    instr_cnt := 0
    memory := [{ start := 0x400000, size := bytes.length, mem := bytes }] }

/-- Fixture for C1: the word `0x24000005` is `ADDIU r0, r0, 5`
(bytes stored little-endian). -/
def c1Machine : MipsComputer := mkTextMachine [0x05, 0x00, 0x00, 0x24] []

/-- Fixture for C2: the word `0x0000400C` is `SYSCALL` with the `rd`
field equal to 8; `regs[8] = 10` while `regs[2] = 0`. -/
def c2Machine : MipsComputer := mkTextMachine [0x0C, 0x40, 0x00, 0x00] [(8, 10)]

/-- Fixture for C3: the fetched word is `0x00000000`. -/
def c3Machine : MipsComputer := mkTextMachine [0x00, 0x00, 0x00, 0x00] []

/-- Fixture for C4: the word `0x0022001A` is `DIV r1, r2`;
`regs[1] = 0xFFFFFFF9` (−7 as a signed 32-bit value), `regs[2] = 2`. -/
def c4Machine : MipsComputer :=
  mkTextMachine [0x1A, 0x00, 0x22, 0x00] [(1, 0xFFFFFFF9), (2, 2)]

/-- Fixture for C5: the word `0x00220018` is `MULT r1, r2`;
`regs[1] = 0x80000000` (−2³¹ as a signed 32-bit value), `regs[2] = 2`. -/
def c5Machine : MipsComputer :=
  mkTextMachine [0x18, 0x00, 0x22, 0x00] [(1, 0x80000000), (2, 2)]

/-- Fixture for C6 (SB): the word `0xA0220000` is `SB r2, 0(r1)`;
`regs[1]` points at a data region whose first word is `0xDEADBEEF`
(bytes `EF BE AD DE` little-endian) and `regs[2] = 0x42`. -/
def c6MachineSB : MipsComputer :=
  let base := mkTextMachine [0x00, 0x00, 0x22, 0xA0] [(1, 0x10000000), (2, 0x42)]
  { base with memory :=
      base.memory ++ [{ start := 0x10000000, size := 8
                        mem := [0xEF, 0xBE, 0xAD, 0xDE, 0, 0, 0, 0] }] }

/-- Fixture for C6 (SH): the word `0xA4220000` is `SH r2, 0(r1)`;
same data region, `regs[2] = 0x3142`. -/
def c6MachineSH : MipsComputer :=
  let base := mkTextMachine [0x00, 0x00, 0x22, 0xA4] [(1, 0x10000000), (2, 0x3142)]
  { base with memory :=
      base.memory ++ [{ start := 0x10000000, size := 8
                        mem := [0xEF, 0xBE, 0xAD, 0xDE, 0, 0, 0, 0] }] }

/-- Fixture for C7 (JALR): the word `0x00201009` is `JALR r2, r1`;
`regs[1] = 0x00400010` is the jump target and `regs[2] = 0` before the
cycle. -/
def c7MachineA : MipsComputer := mkTextMachine [0x09, 0x10, 0x20, 0x00] [(1, 0x400010)]

/-- Fixture for C7 (BLTZAL handler): a machine about to execute a
`BLTZAL r1, +4` I-form record with `regs[1] = 0` (branch not taken). -/
def c7MachineB : MipsComputer := mkTextMachine [0x00, 0x00, 0x00, 0x00] []

/-- The `BLTZAL r1, +4` instruction record fed to the I-type handler
for C7 (`rt = 0x20` is the value the decoder's REGIMM table matches
for BLTZAL). -/
def c7InstrB : IType := { opcode := 1, rs := 1, rt := 0x20, imm := 4, op := IOp.BLTZAL }

/-- Fixture for the C8 witness: the word `0x10220002` is
`BEQ r1, r2, +2` and `regs[1] = regs[2] = 7`, so the branch is taken. -/
def c8Machine : MipsComputer := mkTextMachine [0x02, 0x00, 0x22, 0x10] [(1, 7), (2, 7)]

/-- The decoded form of the C8 witness word `0x10220002`. -/
def c8Instr : IType := { opcode := 4, rs := 1, rt := 2, imm := 2, op := IOp.BEQ }

/-- Fixture region for C9: a fresh region of 8 bytes based at the
TEXT segment base. -/
def c9Region : MemRegion := MemRegion.new 0x400000 8

/-- Fixture region for C10: a fresh region of 8 bytes based at the
TEXT segment base. -/
def c10Region : MemRegion := MemRegion.new 0x400000 8

/-! ## Claim C1 -/

/-- C1: the claim states that immediately after the commit step
`current.regs[0]` equals 0 regardless of what the handler wrote.  The
code contradicts it: `MipsComputer::cycle` commits `next_state` over
`curr_state` wholesale and never forces `regs[0]` back to zero, so
executing `ADDIU r0, r0, 5` (word `0x24000005`) leaves the value 5 in
`current.regs[0]` after the commit. -/
theorem c1_regs0_not_forced_to_zero :
    (MipsComputer.cycle c1Machine).map (fun m => getReg m.curr_state 0) = some 5 := by
  decide

/-! ## Claim C2 -/

/-- C2: the claim states that SYSCALL halts the machine if and only if
`current.regs[2]` (v0) equals 10.  The code instead reads
`current.regs[rd]`: in `c2Machine` the SYSCALL word `0x0000400C` has
`rd = 8`, `regs[8] = 10` and `regs[2] = 0`, yet the cycle clears
`running`. -/
theorem c2_syscall_reads_rd_not_v0 :
    getReg c2Machine.curr_state 2 = 0 ∧
    (MipsComputer.cycle c2Machine).map (fun m => m.run_bit) = some false := by
  exact ⟨by decide, by decide⟩

/-! ## Claim C3 -/

/-- C3 counterexample: the claim states that a cycle whose fetch
returns the word 0 does not increment `instr_count`.  In `c3Machine`
the fetch at the PC returns `ok 0` and `instr_cnt` starts at 0, yet
after the attempted cycle `instr_cnt = 1`: `MipsComputer::cycle`
increments the counter unconditionally. -/
theorem c3_instr_cnt_incremented_on_halted_cycle :
    c3Machine.mem_read_32 c3Machine.curr_state.pc = .ok 0 ∧
    c3Machine.instr_cnt = 0 ∧
    (MipsComputer.cycle c3Machine).map (fun m => m.instr_cnt) = some 1 := by
  exact ⟨by decide, by decide, by decide⟩

/-- C3 amended: for every machine whose fetch at `current.PC` returns
the word 0 and whose snapshots agree (`curr_state = next_state`, which
holds at the start of every reachable cycle), the attempted cycle
clears `running`, leaves both snapshots and the memory unchanged, and
increments `instr_count` by one. -/
theorem c3_halt_on_zero_word (m : MipsComputer)
    (hfetch : m.mem_read_32 m.curr_state.pc = .ok 0)
    (hcn : m.curr_state = m.next_state) :
    ∃ m2, MipsComputer.cycle m = some m2 ∧ m2.run_bit = false ∧
      m2.curr_state = m.curr_state ∧ m2.next_state = m.next_state ∧
      m2.memory = m.memory ∧ m2.instr_cnt = (m.instr_cnt + 1) % 2 ^ 32 := by
  refine ⟨{ m with
      run_bit := false
      curr_state := m.next_state
      instr_cnt := (m.instr_cnt + 1) % 2 ^ 32 }, ?_, rfl, ?_, rfl, rfl, rfl⟩
  · simp [MipsComputer.cycle, MipsComputer.process_instruction, hfetch]
  · exact hcn.symm

/-- C3 amended, witness: the amended statement holds at `c3Machine`. -/
theorem c3_halt_on_zero_word_witness :
    ∃ m2, MipsComputer.cycle c3Machine = some m2 ∧ m2.run_bit = false ∧
      m2.curr_state = c3Machine.curr_state ∧ m2.next_state = c3Machine.next_state ∧
      m2.memory = c3Machine.memory ∧
      m2.instr_cnt = (c3Machine.instr_cnt + 1) % 2 ^ 32 :=
  c3_halt_on_zero_word c3Machine (by decide) (by decide)

/-! ## Claim C4 -/

/-- C4: the claim states that DIV (with a nonzero divisor) leaves the
signed quotient in LO and the signed remainder in HI.  The code casts
the `u32` operands with `as i64`, which zero-extends, and then stores
the upper/lower halves of the 64-bit quotient, so the division is
unsigned and HI never receives a remainder.  With
`R[rs] = 0xFFFFFFF9` (−7 signed) and `R[rt] = 2` the claim expects
`LO = 0xFFFFFFFD` (−3) and `HI = 0xFFFFFFFF` (−1); the code produces
`LO = 0x7FFFFFFC` (the unsigned quotient `0xFFFFFFF9 / 2`) and
`HI = 0`. -/
theorem c4_div_unsigned_and_hi_zero :
    (MipsComputer.cycle c4Machine).map (fun m => (m.curr_state.hi, m.curr_state.lo)) =
      some (0, 0x7FFFFFFC) := by
  decide

/-! ## Claim C5 -/

/-- C5: the claim states that MULT forms the 64-bit signed product of
`int32(R[rs])` and `int32(R[rt])`.  The code casts the `u32` operands
with `as i64`, which zero-extends rather than sign-extends, so
operands with the sign bit set are treated as large positive numbers.
With `R[rs] = 0x80000000` (−2³¹ signed) and `R[rt] = 2` the signed
product is −2³², so the claim expects `HI = 0xFFFFFFFF`, `LO = 0`;
the code computes `0x80000000 * 2 = 2³²` and produces `HI = 1`,
`LO = 0`. -/
theorem c5_mult_zero_extends_operands :
    (MipsComputer.cycle c5Machine).map (fun m => (m.curr_state.hi, m.curr_state.lo)) =
      some (1, 0) := by
  decide

/-! ## Claim C6 -/

/-- C6: the claim states that SB (resp. SH) changes only the addressed
byte (resp. halfword), preserving the rest of the surrounding word.
The code instead issues `mem_write_32` with the masked value, storing
a full word.  In the SB fixture the data word `EF BE AD DE` becomes
`42 00 00 00` (bytes 1–3, which held `BE AD DE`, are zeroed); in the
SH fixture it becomes `42 31 00 00` (bytes 2–3 are zeroed). -/
theorem c6_sb_sh_clobber_neighbouring_bytes :
    (MipsComputer.cycle c6MachineSB).map (fun m => m.memory.map MemRegion.mem) =
      some [[0x00, 0x00, 0x22, 0xA0], [0x42, 0, 0, 0, 0, 0, 0, 0]] ∧
    (MipsComputer.cycle c6MachineSH).map (fun m => m.memory.map MemRegion.mem) =
      some [[0x00, 0x00, 0x22, 0xA4], [0x42, 0x31, 0, 0, 0, 0, 0, 0]] := by
  exact ⟨by decide, by decide⟩

/-! ## Claim C7 -/

/-- C7: the claim states that after a JALR cycle commits, `rd` holds
`current.PC + 4`, and that BLTZAL/BGEZAL leave `current.PC + 4` in
register 31 after the commit.  The code writes the link into
`curr_state`, which the commit immediately overwrites with
`next_state`, so the link value is lost.  First conjunct: in the JALR
fixture (PC `0x00400000`, `rd = 2`) the committed `regs[2]` is 0, not
`0x00400004`, even though the jump itself succeeds
(PC becomes `R[rs] = 0x00400010`).  Second conjunct: the BLTZAL
handler stores the link `0x00400004` only in `curr_state.regs[31]`,
leaving `next_state.regs[31]` at 0 — and the commit then replaces
`curr_state` with `next_state`, discarding the link. -/
theorem c7_link_written_to_current_is_lost :
    (MipsComputer.cycle c7MachineA).map
        (fun m => (getReg m.curr_state 2, m.curr_state.pc)) = some (0, 0x00400010) ∧
    (MipsComputer.process_itype_instruction c7MachineB c7InstrB).map
        (fun p => (getReg p.1.curr_state 31, getReg p.1.next_state 31, p.2)) =
      some (0x00400004, 0, true) := by
  exact ⟨by decide, by decide⟩

/-! ## Helper lemmas about bytes and little-endian words -/

/-- Disjoint or is addition: when `b` fits below the shift, the
bitwise or of `a <<< n` and `b` is their sum. -/
theorem lor_shiftLeft_add (a b n : Nat) (hb : b < 2 ^ n) :
    (a <<< n) ||| b = a * 2 ^ n + b := by
  rw [Nat.shiftLeft_eq, Nat.mul_comm, ← Nat.mul_add_lt_is_or hb, Nat.mul_comm]

/-- Reassembling the four little-endian bytes of a 32-bit value, in
the or-of-shifts form used by `MemRegion.read_32`, recovers the
value. -/
theorem bytes_reassemble (v : Nat) (hv : v < 2 ^ 32) :
    (((((v >>> 24) % 256) <<< 24) ||| (((v >>> 16) % 256) <<< 16)) |||
        (((v >>> 8) % 256) <<< 8)) ||| (v % 256) = v := by
  have e8 : v >>> 8 = v / 2 ^ 8 := Nat.shiftRight_eq_div_pow v 8
  have e16 : v >>> 16 = v / 2 ^ 16 := Nat.shiftRight_eq_div_pow v 16
  have e24 : v >>> 24 = v / 2 ^ 24 := Nat.shiftRight_eq_div_pow v 24
  rw [Nat.lor_assoc, Nat.lor_assoc]
  rw [lor_shiftLeft_add ((v >>> 8) % 256) (v % 256) 8 (by omega)]
  rw [lor_shiftLeft_add ((v >>> 16) % 256) _ 16 (by omega)]
  rw [lor_shiftLeft_add ((v >>> 24) % 256) _ 24 (by omega)]
  rw [e8, e16, e24]
  omega

/-! ## Claim C9 -/

/-- C9 counterexample: the claim asserts the write-then-read round
trip for every address inside a region.  The address `0x400005` lies
inside `c9Region` (base `0x400000`, size 8), yet `write_32` there
panics (indexes the byte vector out of bounds, `fault`) instead of
completing, so no subsequent `read_32` can return the written value. -/
theorem c9_roundtrip_fails_at_region_edge :
    c9Region.contains_address 0x400005 = true ∧
    ¬ ∃ r2, c9Region.write_32 0x400005 0xDEADBEEF = MemResult.ok r2 ∧
        r2.read_32 0x400005 = MemResult.ok 0xDEADBEEF := by
  refine ⟨by decide, ?_⟩
  rintro ⟨r2, h, -⟩
  have hf : c9Region.write_32 0x400005 0xDEADBEEF = MemResult.fault := by decide
  rw [hf] at h
  exact MemResult.noConfusion h

/-- C9 amended: the round trip holds for every address whose full
4-byte word lies inside the region (`start ≤ a` and
`a + 3 < start + size`), for every region satisfying the
`mem.length = size` invariant and every 32-bit value. -/
theorem c9_write32_read32_roundtrip (r : MemRegion) (a v : Nat)
    (hlen : r.mem.length = r.size)
    (hlo : r.start ≤ a) (hhi : a + 3 < r.start + r.size) (hv : v < 2 ^ 32) :
    ∃ r2, r.write_32 a v = MemResult.ok r2 ∧ r2.read_32 a = MemResult.ok v := by
  have hc : r.contains_address a = true := by
    simp only [MemRegion.contains_address, Bool.and_eq_true, decide_eq_true_eq, ge_iff_le]
    omega
  have hoff : a - r.start + 3 < r.mem.length := by omega
  refine ⟨{ r with mem := (((r.mem.set (a - r.start + 3) ((v >>> 24) % 256)).set (a - r.start + 2) ((v >>> 16) % 256)).set (a - r.start + 1) ((v >>> 8) % 256)).set (a - r.start) (v % 256) }, ?_, ?_⟩
  · simp only [MemRegion.write_32, hc, Bool.not_true, Bool.false_eq_true, if_false, hoff,
      if_true]
  · have g3 :
        ((((r.mem.set (a - r.start + 3) ((v >>> 24) % 256)).set
            (a - r.start + 2) ((v >>> 16) % 256)).set
            (a - r.start + 1) ((v >>> 8) % 256)).set
            (a - r.start) (v % 256))[a - r.start + 3]? = some ((v >>> 24) % 256) := by
      rw [List.getElem?_set_ne (by omega), List.getElem?_set_ne (by omega),
        List.getElem?_set_ne (by omega), List.getElem?_set_self (by omega)]
    have g2 :
        ((((r.mem.set (a - r.start + 3) ((v >>> 24) % 256)).set
            (a - r.start + 2) ((v >>> 16) % 256)).set
            (a - r.start + 1) ((v >>> 8) % 256)).set
            (a - r.start) (v % 256))[a - r.start + 2]? = some ((v >>> 16) % 256) := by
      rw [List.getElem?_set_ne (by omega), List.getElem?_set_ne (by omega),
        List.getElem?_set_self (by simp; omega)]
    have g1 :
        ((((r.mem.set (a - r.start + 3) ((v >>> 24) % 256)).set
            (a - r.start + 2) ((v >>> 16) % 256)).set
            (a - r.start + 1) ((v >>> 8) % 256)).set
            (a - r.start) (v % 256))[a - r.start + 1]? = some ((v >>> 8) % 256) := by
      rw [List.getElem?_set_ne (by omega), List.getElem?_set_self (by simp; omega)]
    have g0 :
        ((((r.mem.set (a - r.start + 3) ((v >>> 24) % 256)).set
            (a - r.start + 2) ((v >>> 16) % 256)).set
            (a - r.start + 1) ((v >>> 8) % 256)).set
            (a - r.start) (v % 256))[a - r.start]? = some (v % 256) := by
      rw [List.getElem?_set_self (by simp; omega)]
    have hc2 : ({ r with mem := (((r.mem.set (a - r.start + 3) ((v >>> 24) % 256)).set (a - r.start + 2) ((v >>> 16) % 256)).set (a - r.start + 1) ((v >>> 8) % 256)).set (a - r.start) (v % 256) } : MemRegion).contains_address a = true := hc
    simp only [MemRegion.read_32, g3, g2, g1, g0]
    rw [bytes_reassemble v hv, hc2]
    simp

/-- C9 amended, witness: the round trip at address 0 of a 4-byte
region based at 0 with the value `0xDEADBEEF`. -/
theorem c9_write32_read32_roundtrip_witness :
    ∃ r2, (MemRegion.new 0 4).write_32 0 0xDEADBEEF = MemResult.ok r2 ∧
      r2.read_32 0 = MemResult.ok 0xDEADBEEF :=
  c9_write32_read32_roundtrip (MemRegion.new 0 4) 0 0xDEADBEEF (by decide) (by decide)
    (by decide) (by decide)

/-! ## Claim C10 -/

/-- C10: containment is checked only for the first byte, so a word
access at one of the last three bytes of a region (and a halfword
access at the last byte) passes the containment test but then indexes
past the end of the byte buffer — a panic (`fault`) rather than an
`absent` result or a `false` return. -/
theorem c10_multibyte_access_checks_first_byte_only (r : MemRegion) (a v : Nat)
    (hlen : r.mem.length = r.size) (hlo : r.start ≤ a)
    (hin : a < r.start + r.size) (hpast : r.start + r.size ≤ a + 3) :
    r.contains_address a = true ∧
    r.read_32 a = MemResult.fault ∧
    r.write_32 a v = MemResult.fault ∧
    (r.start + r.size ≤ a + 1 → r.read_16 a = MemResult.fault) := by
  have hc : r.contains_address a = true := by
    simp only [MemRegion.contains_address, Bool.and_eq_true, decide_eq_true_eq, ge_iff_le]
    omega
  have h3 : r.mem[a - r.start + 3]? = none := List.getElem?_eq_none (by omega)
  refine ⟨hc, ?_, ?_, ?_⟩
  · simp only [MemRegion.read_32, hc, Bool.not_true, Bool.false_eq_true, if_false, h3]
  · simp only [MemRegion.write_32, hc, Bool.not_true, Bool.false_eq_true, if_false,
      if_neg (show ¬ a - r.start + 3 < r.mem.length by omega)]
  · intro hlast
    have h1 : r.mem[a - r.start + 1]? = none := List.getElem?_eq_none (by omega)
    simp only [MemRegion.read_16, hc, Bool.not_true, Bool.false_eq_true, if_false, h1]

/-- C10 witness: the last byte `0x400007` of `c10Region`
(base `0x400000`, size 8). -/
theorem c10_multibyte_access_checks_first_byte_only_witness :
    c10Region.contains_address 0x400007 = true ∧
    c10Region.read_32 0x400007 = MemResult.fault ∧
    c10Region.write_32 0x400007 0 = MemResult.fault ∧
    (c10Region.start + c10Region.size ≤ 0x400007 + 1 →
      c10Region.read_16 0x400007 = MemResult.fault) :=
  c10_multibyte_access_checks_first_byte_only c10Region 0x400007 0 (by decide) (by decide)
    (by decide) (by decide)

/-! ## Helper lemmas about `i32` reinterpretation and sign extension -/

/-- `toI32` preserves the residue modulo `2 ^ 32`. -/
theorem toI32_emod_eq (n : Nat) : toI32 n % (2 ^ 32 : Int) = (n : Int) % (2 ^ 32 : Int) := by
  unfold toI32
  split
  · push_cast
    rw [Int.emod_emod_of_dvd _ dvd_rfl]
  · push_cast
    rw [Int.sub_emod, Int.emod_self, sub_zero, Int.emod_emod_of_dvd _ dvd_rfl,
      Int.emod_emod_of_dvd _ dvd_rfl]

/-- Converting an `i32`-plus-offset sum back to `u32` is the same as
adding over the integers and reducing modulo `2 ^ 32`. -/
theorem ofI32_toI32_add (n : Nat) (s : Int) :
    ofI32 (toI32 n + s) = (((n : Int) + s) % (2 ^ 32 : Int)).toNat := by
  unfold ofI32
  rw [Int.add_emod, toI32_emod_eq, ← Int.add_emod]

/-- On inputs that fit in `size` bits, the code's `sign_extend32`
agrees with the spec-side two's-complement reading `se_spec`. -/
theorem sign_extend32_eq_se_spec (data size : Nat) (h1 : 0 < size) (h2 : size ≤ 32)
    (h3 : data < 2 ^ size) : sign_extend32 data size = se_spec data size := by
  unfold sign_extend32 se_spec toI32
  have hne : ((2 : Int) ^ (32 - size)) ≠ 0 := by positivity
  have hshift : data <<< (32 - size) = data * 2 ^ (32 - size) := Nat.shiftLeft_eq _ _
  have hpow : (2 : Nat) ^ size * 2 ^ (32 - size) = 2 ^ 32 := by
    rw [← pow_add]
    congr 1
    omega
  have hpow31 : (2 : Nat) ^ (size - 1) * 2 ^ (32 - size) = 2 ^ 31 := by
    rw [← pow_add]
    congr 1
    omega
  have hlt : data * 2 ^ (32 - size) < 2 ^ 32 := by
    calc data * 2 ^ (32 - size) < 2 ^ size * 2 ^ (32 - size) :=
          Nat.mul_lt_mul_of_lt_of_le h3 (Nat.le_refl _) (Nat.two_pow_pos _)
    _ = 2 ^ 32 := hpow
  rw [hshift, Nat.mod_eq_of_lt hlt, Nat.mod_eq_of_lt hlt, Nat.mod_eq_of_lt h3]
  have hcond : (data * 2 ^ (32 - size) < 2 ^ 31) ↔ (data < 2 ^ (size - 1)) := by
    rw [← hpow31]
    exact Nat.mul_lt_mul_right (Nat.two_pow_pos _)
  by_cases hd : data < 2 ^ (size - 1)
  · rw [if_pos (hcond.mpr hd), if_pos hd]
    push_cast
    exact Int.mul_fdiv_cancel _ hne
  · rw [if_neg (fun hx => hd (hcond.mp hx)), if_neg hd]
    have hcast : ((data * 2 ^ (32 - size) : Nat) : Int) - 2 ^ 32 =
        ((data : Int) - 2 ^ size) * 2 ^ (32 - size) := by
      have hp : ((2 : Int) ^ size) * 2 ^ (32 - size) = 2 ^ 32 := by exact_mod_cast hpow
      push_cast
      linear_combination hp
    rw [hcast, Int.mul_fdiv_cancel _ hne]

/-- The branch-target computation in the code equals the spec's
`current.PC + se18(imm << 2)` reduced modulo `2 ^ 32`, for any 16-bit
immediate. -/
theorem code_branch_target_eq (pc imm : Nat) (himm : imm < 2 ^ 16) :
    ofI32 (toI32 pc + sign_extend32 ((imm <<< 2) % 2 ^ 32) 18) = branchTargetSpec pc imm := by
  have h1 : imm <<< 2 < 2 ^ 18 := by
    rw [Nat.shiftLeft_eq]
    omega
  have h2 : (imm <<< 2) % 2 ^ 32 = imm <<< 2 := Nat.mod_eq_of_lt (by omega)
  rw [h2, sign_extend32_eq_se_spec _ 18 (by norm_num) (by norm_num) h1, ofI32_toI32_add]
  rfl

/-! ## Helper lemmas about the decoder -/

/-- A REGIMM decode always carries the low 16 bits of the word as its
immediate. -/
theorem parse_immediate_instr_and_op_imm (w : Nat) (i : IType)
    (h : parse_immediate_instr_and_op w = some i) : i.imm = w &&& 0xFFFF := by
  simp only [parse_immediate_instr_and_op] at h
  split at h
  · injection h with h2
    subst h2
    rfl
  · cases h

/-- Every successfully decoded I-form instruction carries the low 16
bits of the word as its immediate, hence a value below `2 ^ 16`. -/
theorem parse_instr_itype_imm (w : Nat) (i : IType)
    (h : parse_instr w = some (Instr.IType i)) : i.imm = w &&& 0xFFFF := by
  unfold parse_instr at h
  split at h <;>
    first
      | (injection h with h2; injection h2 with h3; subst h3; rfl)
      | (injection h with h2; cases h2)
      | (cases h)
      | skip
  · split at h
    · injection h with h2
      injection h2 with h3
      subst h3
      rename_i heq
      exact parse_immediate_instr_and_op_imm w _ heq
    · cases h
  · split at h
    · injection h with h2
      cases h2
    · cases h

/-! ## Claim C8 -/

/-- C8: for every branch-on-condition instruction (BEQ, BNE, BLEZ,
BGTZ, BLTZ, BGEZ, BLTZAL, BGEZAL) reached through fetch and decode,
the cycle's PC update follows the spec: when the branch condition
holds, `next.PC` is set to `current.PC + se18(imm << 2)` reduced
modulo `2 ^ 32`, and when it does not hold, `next.PC` is
`current.PC + 4` (modulo `2 ^ 32`). -/
theorem c8_branch_target_and_pc_update (m : MipsComputer) (w : Nat) (i : IType)
    (hfetch : m.mem_read_32 m.curr_state.pc = .ok w)
    (hw : w ≠ 0)
    (hparse : parse_instr w = some (Instr.IType i))
    (hbr : isBranch i.op = true) :
    ∃ m2, MipsComputer.process_instruction m = some m2 ∧
      m2.next_state.pc =
        (if branchCondSpec i m.curr_state then branchTargetSpec m.curr_state.pc i.imm
         else (m.curr_state.pc + 4) % 2 ^ 32) := by
  have himm : i.imm < 2 ^ 16 := by
    rw [parse_instr_itype_imm w i hparse]
    exact lt_of_le_of_lt Nat.and_le_right (by norm_num)
  obtain ⟨opc, rs, rt, imm, op⟩ := i
  simp only [MipsComputer.process_instruction, hfetch, if_neg hw, hparse]
  cases op <;> try simp only [isBranch] at hbr
  all_goals try exact Bool.noConfusion hbr
  case BEQ =>
    simp only [MipsComputer.process_itype_instruction]
    by_cases hcnd : getReg m.curr_state rs = getReg m.curr_state rt
    · rw [if_pos hcnd]
      refine ⟨_, rfl, ?_⟩
      have hbc : branchCondSpec { opcode := opc, rs := rs, rt := rt, imm := imm, op := IOp.BEQ } m.curr_state = true := by
        simp [branchCondSpec, hcnd]
      rw [hbc]
      simp only [if_true, ite_true]
      exact code_branch_target_eq _ _ himm
    · rw [if_neg hcnd]
      refine ⟨_, rfl, ?_⟩
      have hbc : branchCondSpec { opcode := opc, rs := rs, rt := rt, imm := imm, op := IOp.BEQ } m.curr_state = false := by
        simp [branchCondSpec, hcnd]
      rw [hbc]
      simp
  case BNE =>
    simp only [MipsComputer.process_itype_instruction]
    by_cases hcnd : getReg m.curr_state rs ≠ getReg m.curr_state rt
    · rw [if_pos hcnd]
      refine ⟨_, rfl, ?_⟩
      have hbc : branchCondSpec { opcode := opc, rs := rs, rt := rt, imm := imm, op := IOp.BNE } m.curr_state = true := by
        simp [branchCondSpec, hcnd]
      rw [hbc]
      simp only [if_true, ite_true]
      exact code_branch_target_eq _ _ himm
    · rw [if_neg hcnd]
      refine ⟨_, rfl, ?_⟩
      have hbc : branchCondSpec { opcode := opc, rs := rs, rt := rt, imm := imm, op := IOp.BNE } m.curr_state = false := by
        simp [branchCondSpec, hcnd]
      rw [hbc]
      simp
  case BLEZ =>
    simp only [MipsComputer.process_itype_instruction]
    by_cases hcnd : toI32 (getReg m.curr_state rs) ≤ 0
    · rw [if_pos hcnd]
      refine ⟨_, rfl, ?_⟩
      have hbc : branchCondSpec { opcode := opc, rs := rs, rt := rt, imm := imm, op := IOp.BLEZ } m.curr_state = true := by
        simp [branchCondSpec, hcnd]
      rw [hbc]
      simp only [if_true, ite_true]
      exact code_branch_target_eq _ _ himm
    · rw [if_neg hcnd]
      refine ⟨_, rfl, ?_⟩
      have hbc : branchCondSpec { opcode := opc, rs := rs, rt := rt, imm := imm, op := IOp.BLEZ } m.curr_state = false := by
        simp [branchCondSpec, hcnd]
      rw [hbc]
      simp
  case BGTZ =>
    simp only [MipsComputer.process_itype_instruction]
    by_cases hcnd : toI32 (getReg m.curr_state rs) > 0
    · rw [if_pos hcnd]
      refine ⟨_, rfl, ?_⟩
      have hbc : branchCondSpec { opcode := opc, rs := rs, rt := rt, imm := imm, op := IOp.BGTZ } m.curr_state = true := by
        simp [branchCondSpec, hcnd]
      rw [hbc]
      simp only [if_true, ite_true]
      exact code_branch_target_eq _ _ himm
    · rw [if_neg hcnd]
      refine ⟨_, rfl, ?_⟩
      have hbc : branchCondSpec { opcode := opc, rs := rs, rt := rt, imm := imm, op := IOp.BGTZ } m.curr_state = false := by
        simp [branchCondSpec, hcnd]
      rw [hbc]
      simp
  case BLTZ =>
    simp only [MipsComputer.process_itype_instruction]
    by_cases hcnd : toI32 (getReg m.curr_state rs) < 0
    · rw [if_pos hcnd]
      refine ⟨_, rfl, ?_⟩
      have hbc : branchCondSpec { opcode := opc, rs := rs, rt := rt, imm := imm, op := IOp.BLTZ } m.curr_state = true := by
        simp [branchCondSpec, hcnd]
      rw [hbc]
      simp only [if_true, ite_true]
      exact code_branch_target_eq _ _ himm
    · rw [if_neg hcnd]
      refine ⟨_, rfl, ?_⟩
      have hbc : branchCondSpec { opcode := opc, rs := rs, rt := rt, imm := imm, op := IOp.BLTZ } m.curr_state = false := by
        simp [branchCondSpec, hcnd]
      rw [hbc]
      simp
  case BGEZ =>
    simp only [MipsComputer.process_itype_instruction]
    by_cases hcnd : toI32 (getReg m.curr_state rs) ≥ 0
    · rw [if_pos hcnd]
      refine ⟨_, rfl, ?_⟩
      have hbc : branchCondSpec { opcode := opc, rs := rs, rt := rt, imm := imm, op := IOp.BGEZ } m.curr_state = true := by
        simp [branchCondSpec, hcnd]
      rw [hbc]
      simp only [if_true, ite_true]
      exact code_branch_target_eq _ _ himm
    · rw [if_neg hcnd]
      refine ⟨_, rfl, ?_⟩
      have hbc : branchCondSpec { opcode := opc, rs := rs, rt := rt, imm := imm, op := IOp.BGEZ } m.curr_state = false := by
        simp [branchCondSpec, hcnd]
      rw [hbc]
      simp
  case BLTZAL =>
    simp only [MipsComputer.process_itype_instruction]
    by_cases hcnd : toI32 (getReg m.curr_state rs) < 0
    · rw [if_pos hcnd]
      refine ⟨_, rfl, ?_⟩
      have hbc : branchCondSpec { opcode := opc, rs := rs, rt := rt, imm := imm, op := IOp.BLTZAL } m.curr_state = true := by
        simp [branchCondSpec, hcnd]
      rw [hbc]
      simp only [if_true, ite_true]
      exact code_branch_target_eq _ _ himm
    · rw [if_neg hcnd]
      refine ⟨_, rfl, ?_⟩
      have hbc : branchCondSpec { opcode := opc, rs := rs, rt := rt, imm := imm, op := IOp.BLTZAL } m.curr_state = false := by
        simp [branchCondSpec, hcnd]
      rw [hbc]
      simp
  case BGEZAL =>
    simp only [MipsComputer.process_itype_instruction]
    by_cases hcnd : toI32 (getReg m.curr_state rs) ≥ 0
    · rw [if_pos hcnd]
      refine ⟨_, rfl, ?_⟩
      have hbc : branchCondSpec { opcode := opc, rs := rs, rt := rt, imm := imm, op := IOp.BGEZAL } m.curr_state = true := by
        simp [branchCondSpec, hcnd]
      rw [hbc]
      simp only [if_true, ite_true]
      exact code_branch_target_eq _ _ himm
    · rw [if_neg hcnd]
      refine ⟨_, rfl, ?_⟩
      have hbc : branchCondSpec { opcode := opc, rs := rs, rt := rt, imm := imm, op := IOp.BGEZAL } m.curr_state = false := by
        simp [branchCondSpec, hcnd]
      rw [hbc]
      simp

/-- C8 witness: the taken BEQ at `c8Machine` (word `0x10220002`,
`regs[1] = regs[2] = 7`). -/
theorem c8_branch_target_and_pc_update_witness :
    ∃ m2, MipsComputer.process_instruction c8Machine = some m2 ∧
      m2.next_state.pc =
        (if branchCondSpec c8Instr c8Machine.curr_state
         then branchTargetSpec c8Machine.curr_state.pc c8Instr.imm
         else (c8Machine.curr_state.pc + 4) % 2 ^ 32) :=
  c8_branch_target_and_pc_update c8Machine 0x10220002 c8Instr (by decide) (by decide)
    (by decide) (by decide)

end MipsSim
